import Mathlib

/-!
Verification of the per-identity bounded conversation store of goldfish.chat,
a shallow embedding of `worker/src/durable-objects/UserChatStorage.ts`.

The Durable Object keeps, per identity, a single `UserStorage` value
holding a list of `Conversation` records and a `UserPreferences` value.
`POST /chats` either appends a message to an existing conversation
(when a non-empty `conversationId` is supplied) or creates a new one,
evicting by a stable sort on `updatedAt` followed by `shift()` when the
list already holds `MAX_CHATS` records.  Timestamps (`Date.now()`) and
fresh identifiers (`crypto.randomUUID()`) are passed in as explicit
arguments; JavaScript's stable in-place `sort` is modelled by a stable
insertion sort.
-/

namespace Goldfish

/-- A chat message, from `worker/src/types` (role, content, timestamp). -/
structure Message where
  role : String
  content : String
  timestamp : Nat
deriving DecidableEq

/-- A conversation record, from `worker/src/types`. -/
structure Conversation where
  id : String
  title : String
  model : String
  messages : List Message
  createdAt : Nat
  updatedAt : Nat
deriving DecidableEq

/-- User preferences (default model and theme). -/
structure UserPreferences where
  defaultModel : String
  theme : String
deriving DecidableEq

/-- The single persisted unit per identity: chats plus preferences. -/
structure UserStorage where
  chats : List Conversation
  preferences : UserPreferences
deriving DecidableEq

/-- The default preferences used by `getStorage` and `DELETE /clear`. -/
def defaultPreferences : UserPreferences :=
  { defaultModel := "gpt-4o", theme := "dark" }

/-- The default storage: empty chat list, default preferences. -/
def defaultStorage : UserStorage :=
  { chats := [], preferences := defaultPreferences }

/-- `const MAX_CHATS = 3`. -/
def MAX_CHATS : Nat := 3

/-- One step of a stable insertion sort: place `c` before the first element
whose `updatedAt` is at least `c.updatedAt`.  Elements already in the list
stand for elements that came after `c` in the original array, so ties keep
`c` first, matching JavaScript's stable `sort((a, b) => a.updatedAt - b.updatedAt)`. -/
def insertByUpdatedAt (c : Conversation) : List Conversation → List Conversation
  | [] => [c]
  | d :: ds =>
    if c.updatedAt ≤ d.updatedAt then c :: d :: ds
    else d :: insertByUpdatedAt c ds

/-- Stable ascending sort by `updatedAt`, modelling
`chats.sort((a, b) => a.updatedAt - b.updatedAt)`. -/
def sortByUpdatedAt (l : List Conversation) : List Conversation :=
  l.foldr insertByUpdatedAt []

/-- The fresh record built in the new-conversation branch of `POST /chats`:
`id` from `crypto.randomUUID()`, `title` from the first 50 characters of the
message content plus an ellipsis, both timestamps `Date.now()`. -/
def mkConversation (m : Message) (model : String) (now : Nat) (freshId : String) :
    Conversation :=
  { id := freshId
    title := m.content.take 50 ++ "..."
    model := model
    messages := [m]
    createdAt := now
    updatedAt := now }

/-- The new-conversation branch of `POST /chats`: build the record, evict the
head of the stably sorted list when `chats.length >= MAX_CHATS`, then push. -/
def createConversation (st : UserStorage) (m : Message) (model : String)
    (now : Nat) (freshId : String) : Conversation × UserStorage :=
  let chat := mkConversation m model now freshId
  let kept :=
    if MAX_CHATS ≤ st.chats.length then (sortByUpdatedAt st.chats).tail
    else st.chats
  (chat, { st with chats := kept ++ [chat] })

/-- The in-place mutation of the found record:
`chat.messages.push(body.message); chat.updatedAt = Date.now()`. -/
def appendToChat (c : Conversation) (m : Message) (now : Nat) : Conversation :=
  { c with messages := c.messages ++ [m], updatedAt := now }

/-- Apply `appendToChat` to the first record whose `id` matches `cid`,
mirroring that `find` returns a reference into the array. -/
def touchChat (cid : String) (m : Message) (now : Nat) :
    List Conversation → List Conversation
  | [] => []
  | c :: cs =>
    if c.id == cid then appendToChat c m now :: cs
    else c :: touchChat cid m now cs

/-- Outcome of `POST /chats`: the returned record, or the 404 response. -/
inductive AppendOutcome where
  | ok (chat : Conversation)
  | notFound
deriving DecidableEq

/-- The `POST /chats` handler.  `if (body.conversationId)` is a JavaScript
truthiness test, so a missing or empty id takes the new-conversation branch;
otherwise the first record with a matching id receives the message and a new
`updatedAt`, and a missing record yields a 404 with the storage untouched. -/
def appendMessage (st : UserStorage) (conversationId : Option String)
    (m : Message) (model : String) (now : Nat) (freshId : String) :
    AppendOutcome × UserStorage :=
  match conversationId with
  | some cid =>
    if cid = "" then
      let r := createConversation st m model now freshId
      (AppendOutcome.ok r.1, r.2)
    else
      match st.chats.find? (fun c => c.id == cid) with
      | none => (AppendOutcome.notFound, st)
      | some c =>
        (AppendOutcome.ok (appendToChat c m now),
         { st with chats := touchChat cid m now st.chats })
  | none =>
    let r := createConversation st m model now freshId
    (AppendOutcome.ok r.1, r.2)

/-- The `GET /chats/:id` handler: first record with a matching id, if any. -/
def getConversation (st : UserStorage) (id : String) : Option Conversation :=
  st.chats.find? (fun c => c.id == id)

/-- Remove the first record whose id matches, as `splice(index, 1)` does. -/
def removeFirst (id : String) : List Conversation → List Conversation
  | [] => []
  | c :: cs => if c.id == id then cs else c :: removeFirst id cs

/-- The `DELETE /chats/:id` handler: `none` models the 404 when `findIndex`
returns `-1`; otherwise the first matching record is spliced out. -/
def deleteConversation (st : UserStorage) (id : String) : Option UserStorage :=
  if st.chats.any (fun c => c.id == id) then
    some { st with chats := removeFirst id st.chats }
  else none

/-- The `DELETE /clear` handler: replace the storage with the default. -/
def clearAll (_st : UserStorage) : UserStorage :=
  defaultStorage

/-- A partial preferences update, as `Partial<UserPreferences>`. -/
structure PartialPreferences where
  defaultModel : Option String
  theme : Option String
deriving DecidableEq

/-- The `PUT /preferences` handler: spread-merge of the partial update. -/
def setPreferences (st : UserStorage) (p : PartialPreferences) : UserStorage :=
  { st with preferences :=
      { defaultModel := p.defaultModel.getD st.preferences.defaultModel
        theme := p.theme.getD st.preferences.theme } }

/-- Inputs of one new-conversation `appendMessage` call. -/
structure CreateCall where
  msg : Message
  model : String
  now : Nat
  freshId : String
deriving DecidableEq

/-- The storage after one new-conversation `appendMessage` call. -/
def createStep (st : UserStorage) (c : CreateCall) : UserStorage :=
  (appendMessage st none c.msg c.model c.now c.freshId).2

theorem length_insertByUpdatedAt (c : Conversation) (l : List Conversation) :
    (insertByUpdatedAt c l).length = l.length + 1 := by
  induction l with
  | nil => rfl
  | cons d ds ih =>
    simp only [insertByUpdatedAt]
    split
    · simp
    · simp [ih]

theorem length_sortByUpdatedAt (l : List Conversation) :
    (sortByUpdatedAt l).length = l.length := by
  induction l with
  | nil => rfl
  | cons c cs ih =>
    show (insertByUpdatedAt c (sortByUpdatedAt cs)).length = cs.length + 1
    rw [length_insertByUpdatedAt, ih]

theorem mem_insertByUpdatedAt {a c : Conversation} {l : List Conversation} :
    a ∈ insertByUpdatedAt c l ↔ a = c ∨ a ∈ l := by
  induction l with
  | nil => simp [insertByUpdatedAt]
  | cons d ds ih =>
    simp only [insertByUpdatedAt]
    split
    · simp
    · simp [ih]
      tauto

theorem mem_sortByUpdatedAt {a : Conversation} {l : List Conversation} :
    a ∈ sortByUpdatedAt l ↔ a ∈ l := by
  induction l with
  | nil => simp [sortByUpdatedAt]
  | cons c cs ih =>
    show a ∈ insertByUpdatedAt c (sortByUpdatedAt cs) ↔ _
    rw [mem_insertByUpdatedAt, ih]
    simp

theorem chats_createStep (st : UserStorage) (c : CreateCall) :
    (createStep st c).chats =
      (if MAX_CHATS ≤ st.chats.length then (sortByUpdatedAt st.chats).tail
       else st.chats) ++ [mkConversation c.msg c.model c.now c.freshId] := rfl

theorem length_createStep_le (st : UserStorage) (c : CreateCall)
    (h : st.chats.length ≤ MAX_CHATS) :
    (createStep st c).chats.length ≤ MAX_CHATS := by
  rw [chats_createStep]
  simp only [MAX_CHATS] at h ⊢
  by_cases hc : 3 ≤ st.chats.length
  · rw [if_pos hc, List.length_append, List.length_tail, length_sortByUpdatedAt]
    simp only [List.length_singleton]
    omega
  · rw [if_neg hc, List.length_append]
    simp only [List.length_singleton]
    omega

/-- Claim C1: starting from the empty store, any sequence of
new-conversation `appendMessage` calls leaves at most `MAX_CHATS` (3)
conversation records after each call (every such prefix of calls being
itself a sequence quantified over here). -/
theorem c1_capacity_invariant (calls : List CreateCall) :
    ((calls.foldl createStep defaultStorage).chats.length ≤ MAX_CHATS) := by
  have key : ∀ (cs : List CreateCall) (st : UserStorage),
      st.chats.length ≤ MAX_CHATS →
      ((cs.foldl createStep st).chats.length ≤ MAX_CHATS) := by
    intro cs
    induction cs with
    | nil => intro st h; exact h
    | cons c cs ih => intro st h; exact ih _ (length_createStep_le st c h)
  exact key calls defaultStorage (by simp [defaultStorage])

/-- Claim C4: `appendMessage` with a (non-empty, hence truthy) conversation
id matching no stored record returns the not-found outcome and leaves the
storage unchanged, creating nothing. -/
theorem c4_notFound_no_create (st : UserStorage) (cid : String) (m : Message)
    (model : String) (now : Nat) (freshId : String)
    (hcid : cid ≠ "") (habs : ∀ c ∈ st.chats, c.id ≠ cid) :
    appendMessage st (some cid) m model now freshId = (AppendOutcome.notFound, st) := by
  have hfind : st.chats.find? (fun c => c.id == cid) = none := by
    rw [List.find?_eq_none]
    intro c hc
    simp [habs c hc]
  simp [appendMessage, hcid, hfind]

/-- Witness for C4 at a concrete one-record store and id "b". -/
theorem c4_notFound_no_create_witness :
    appendMessage ⟨[⟨"a", "t", "m", [], 0, 0⟩], defaultPreferences⟩ (some "b")
      ⟨"user", "hi", 1⟩ "gpt-4o" 1 "fresh" =
      (AppendOutcome.notFound, ⟨[⟨"a", "t", "m", [], 0, 0⟩], defaultPreferences⟩) :=
  c4_notFound_no_create _ "b" _ _ _ _ (by decide) (by decide)

/-- A concrete storage holding four records, one more than `MAX_CHATS`. -/
def overStore : UserStorage :=
  { chats :=
      [⟨"a", "t", "m", [], 0, 0⟩, ⟨"b", "t", "m", [], 1, 1⟩,
       ⟨"c", "t", "m", [], 2, 2⟩, ⟨"d", "t", "m", [], 3, 3⟩]
    preferences := defaultPreferences }

/-- Counterexample to C5: on a store already holding four records (above
capacity), a new-conversation `appendMessage` leaves four records, not at
most `MAX_CHATS`: it does not evict down to capacity. -/
theorem c5_counterexample :
    ¬ (((appendMessage overStore none ⟨"user", "hi", 4⟩ "gpt-4o" 4 "e").2).chats.length
        ≤ MAX_CHATS) := by decide

/-- Claim C5 (amended): on a store holding at least `MAX_CHATS` records, a
new-conversation `appendMessage` evicts exactly one record (the head of the
stable sort by `updatedAt`) before inserting, so the record count is
unchanged; a store above capacity stays above capacity rather than
self-healing down to it. -/
theorem c5_single_eviction (st : UserStorage) (m : Message) (model : String)
    (now : Nat) (freshId : String) (h : MAX_CHATS ≤ st.chats.length) :
    ((appendMessage st none m model now freshId).2).chats =
      (sortByUpdatedAt st.chats).tail ++ [mkConversation m model now freshId] ∧
    ((appendMessage st none m model now freshId).2).chats.length = st.chats.length := by
  have hc : (appendMessage st none m model now freshId).2 =
      createStep st ⟨m, model, now, freshId⟩ := rfl
  rw [hc, chats_createStep, if_pos h]
  refine ⟨rfl, ?_⟩
  rw [List.length_append, List.length_tail, length_sortByUpdatedAt]
  simp only [List.length_singleton, MAX_CHATS] at h ⊢
  omega

/-- Witness for C5 (amended) at the concrete four-record store. -/
theorem c5_single_eviction_witness :
    MAX_CHATS ≤ overStore.chats.length ∧
    ((appendMessage overStore none ⟨"user", "hi", 4⟩ "gpt-4o" 4 "e").2).chats.length =
      overStore.chats.length :=
  ⟨by decide,
   (c5_single_eviction overStore ⟨"user", "hi", 4⟩ "gpt-4o" 4 "e" (by decide)).2⟩

/-- The Durable Object's in-memory cache (`this.storage`) together with the
value held under the `'data'` key of the backing storage medium. -/
structure DOState where
  cache : UserStorage
  durable : UserStorage
deriving DecidableEq

/-- One mutating request against the Durable Object. -/
inductive MutOp where
  | append (conversationId : Option String) (m : Message) (model : String)
      (now : Nat) (freshId : String)
  | delete (id : String)
  | clear
  | setPrefs (p : PartialPreferences)
deriving DecidableEq

/-- The in-memory mutation each handler performs on `this.storage` before
awaiting `saveStorage`; `none` models the 404 early returns, which mutate
nothing and skip the persist. -/
def applyMut (st : UserStorage) : MutOp → Option UserStorage
  | MutOp.append cid m model now freshId =>
    match appendMessage st cid m model now freshId with
    | (AppendOutcome.ok _, st') => some st'
    | (AppendOutcome.notFound, _) => none
  | MutOp.delete id => deleteConversation st id
  | MutOp.clear => some (clearAll st)
  | MutOp.setPrefs p => some (setPreferences st p)

/-- One request cycle of a mutating handler: the handler mutates the cache
in place, then `saveStorage` writes the whole cache to the durable key.
When the put throws (`persistOk = false`), the catch handler returns a 500
response, but the cache keeps the mutation; a 404 early return leaves both
components untouched. -/
def runMut (s : DOState) (op : MutOp) (persistOk : Bool) : DOState :=
  match applyMut s.cache op with
  | none => s
  | some st => if persistOk then ⟨st, st⟩ else ⟨st, s.durable⟩

/-- Counterexample to C6: clearing with a failing persist leaves the
in-memory cache cleared, not equal to its state before the operation. -/
theorem c6_counterexample :
    (runMut ⟨⟨[⟨"a", "t", "m", [], 0, 0⟩], defaultPreferences⟩,
             ⟨[⟨"a", "t", "m", [], 0, 0⟩], defaultPreferences⟩⟩
        MutOp.clear false).cache ≠
      ⟨[⟨"a", "t", "m", [], 0, 0⟩], defaultPreferences⟩ := by decide

/-- Claim C6 (amended): when the persist fails, the durable state is
unchanged, but the in-memory cache retains the full mutation whenever the
mutation path succeeded, so the store's observable in-memory state after
the failed operation differs from its state before it. -/
theorem c6_persist_failure (s : DOState) (op : MutOp) :
    (runMut s op false).durable = s.durable ∧
    ∀ st, applyMut s.cache op = some st → (runMut s op false).cache = st := by
  constructor
  · unfold runMut
    cases h : applyMut s.cache op <;> simp
  · intro st h
    simp [runMut, h]

/-- Witness for C6 (amended) with a concrete clear operation. -/
theorem c6_persist_failure_witness :
    (runMut ⟨defaultStorage, defaultStorage⟩ MutOp.clear false).durable = defaultStorage ∧
    (runMut ⟨defaultStorage, defaultStorage⟩ MutOp.clear false).cache = defaultStorage :=
  ⟨(c6_persist_failure ⟨defaultStorage, defaultStorage⟩ MutOp.clear).1,
   (c6_persist_failure ⟨defaultStorage, defaultStorage⟩ MutOp.clear).2 defaultStorage rfl⟩

/-- Claim C10: `clearAll` resets the preferences to the built-in defaults
(default model "gpt-4o", theme "dark") and removes all records, so
preferences set earlier via `setPreferences` are lost. -/
theorem c10_clear_resets_preferences (st : UserStorage) (p : PartialPreferences) :
    (clearAll st).preferences = defaultPreferences ∧
    (clearAll st).chats = [] ∧
    (clearAll (setPreferences st p)).preferences = defaultPreferences :=
  ⟨rfl, rfl, rfl⟩

/-- Claim C2: with capacity 3, four sequential new-conversation calls (their
`Date.now()` values nondecreasing, fresh ids distinct) leave exactly the
records created by the second, third and fourth calls, in that order; the
record created by the first call is gone. -/
theorem c2_fifo_eviction (m1 m2 m3 m4 : Message) (mo1 mo2 mo3 mo4 : String)
    (t1 t2 t3 t4 : Nat) (id1 id2 id3 id4 : String)
    (h12 : t1 ≤ t2) (h23 : t2 ≤ t3)
    (hne2 : id1 ≠ id2) (hne3 : id1 ≠ id3) (hne4 : id1 ≠ id4) :
    (([⟨m1, mo1, t1, id1⟩, ⟨m2, mo2, t2, id2⟩, ⟨m3, mo3, t3, id3⟩,
        ⟨m4, mo4, t4, id4⟩] : List CreateCall).foldl
        createStep defaultStorage).chats =
      [mkConversation m2 mo2 t2 id2, mkConversation m3 mo3 t3 id3,
       mkConversation m4 mo4 t4 id4] ∧
    mkConversation m1 mo1 t1 id1 ∉
      (([⟨m1, mo1, t1, id1⟩, ⟨m2, mo2, t2, id2⟩, ⟨m3, mo3, t3, id3⟩,
          ⟨m4, mo4, t4, id4⟩] : List CreateCall).foldl
          createStep defaultStorage).chats := by
  have hs : (([⟨m1, mo1, t1, id1⟩, ⟨m2, mo2, t2, id2⟩, ⟨m3, mo3, t3, id3⟩,
      ⟨m4, mo4, t4, id4⟩] : List CreateCall).foldl
      createStep defaultStorage).chats =
      [mkConversation m2 mo2 t2 id2, mkConversation m3 mo3 t3 id3,
       mkConversation m4 mo4 t4 id4] := by
    simp [List.foldl, createStep, appendMessage, createConversation,
      defaultStorage, MAX_CHATS, sortByUpdatedAt, insertByUpdatedAt,
      mkConversation, h12, h23]
  refine ⟨hs, ?_⟩
  rw [hs]
  simp [mkConversation, hne2, hne3, hne4]

/-- Witness for C2 at concrete messages, models, times 1–4 and ids a–d. -/
theorem c2_fifo_eviction_witness :
    (([⟨⟨"user", "one", 1⟩, "m", 1, "a"⟩, ⟨⟨"user", "two", 2⟩, "m", 2, "b"⟩,
        ⟨⟨"user", "three", 3⟩, "m", 3, "c"⟩, ⟨⟨"user", "four", 4⟩, "m", 4, "d"⟩] :
        List CreateCall).foldl createStep defaultStorage).chats =
      [mkConversation ⟨"user", "two", 2⟩ "m" 2 "b",
       mkConversation ⟨"user", "three", 3⟩ "m" 3 "c",
       mkConversation ⟨"user", "four", 4⟩ "m" 4 "d"] ∧
    mkConversation ⟨"user", "one", 1⟩ "m" 1 "a" ∉
      (([⟨⟨"user", "one", 1⟩, "m", 1, "a"⟩, ⟨⟨"user", "two", 2⟩, "m", 2, "b"⟩,
          ⟨⟨"user", "three", 3⟩, "m", 3, "c"⟩, ⟨⟨"user", "four", 4⟩, "m", 4, "d"⟩] :
          List CreateCall).foldl createStep defaultStorage).chats :=
  c2_fifo_eviction ⟨"user", "one", 1⟩ ⟨"user", "two", 2⟩ ⟨"user", "three", 3⟩
    ⟨"user", "four", 4⟩ "m" "m" "m" "m" 1 2 3 4 "a" "b" "c" "d"
    (by decide) (by decide) (by decide) (by decide) (by decide)

/-- Claim C3: with records created at nondecreasing times t1, t2, t3, an
append to the first record at a strictly later time t4 makes it the newest,
so the next new-conversation creation evicts the second record (now oldest
by `updatedAt`), leaving exactly the third record, the touched first record
and the new one. -/
theorem c3_append_protects (m1 m2 m3 m4 m5 : Message) (mo1 mo2 mo3 mo4 mo5 : String)
    (t1 t2 t3 t4 t5 : Nat) (id1 id2 id3 id5 fid4 : String)
    (hid1 : id1 ≠ "") (h23 : t2 ≤ t3) (h34 : t3 < t4)
    (hne1 : id2 ≠ id1) (hne3 : id2 ≠ id3) (hne5 : id2 ≠ id5) :
    ∀ s3 s4 s5 : UserStorage,
      s3 = ([⟨m1, mo1, t1, id1⟩, ⟨m2, mo2, t2, id2⟩, ⟨m3, mo3, t3, id3⟩] :
          List CreateCall).foldl createStep defaultStorage →
      s4 = (appendMessage s3 (some id1) m4 mo4 t4 fid4).2 →
      s5 = (appendMessage s4 none m5 mo5 t5 id5).2 →
      s5.chats = [mkConversation m3 mo3 t3 id3,
        appendToChat (mkConversation m1 mo1 t1 id1) m4 t4,
        mkConversation m5 mo5 t5 id5] ∧
      mkConversation m2 mo2 t2 id2 ∉ s5.chats := by
  intro s3 s4 s5 h3 h4 h5
  subst h3 h4 h5
  have h42 : ¬ t4 ≤ t2 := by omega
  have h43 : ¬ t4 ≤ t3 := by omega
  have hs : ((appendMessage
      (appendMessage (([⟨m1, mo1, t1, id1⟩, ⟨m2, mo2, t2, id2⟩,
          ⟨m3, mo3, t3, id3⟩] : List CreateCall).foldl createStep defaultStorage)
        (some id1) m4 mo4 t4 fid4).2 none m5 mo5 t5 id5).2).chats =
      [mkConversation m3 mo3 t3 id3,
       appendToChat (mkConversation m1 mo1 t1 id1) m4 t4,
       mkConversation m5 mo5 t5 id5] := by
    simp [List.foldl, createStep, appendMessage, createConversation,
      defaultStorage, MAX_CHATS, sortByUpdatedAt, insertByUpdatedAt,
      mkConversation, appendToChat, touchChat, List.find?, hid1, h23, h42, h43]
  refine ⟨hs, ?_⟩
  rw [hs]
  simp [mkConversation, appendToChat, hne1, hne3, hne5]

/-- Witness for C3 at concrete messages, times 1–5 and ids a, b, c, e. -/
theorem c3_append_protects_witness :
    ((appendMessage (appendMessage
        (([⟨⟨"user", "one", 1⟩, "m", 1, "a"⟩, ⟨⟨"user", "two", 2⟩, "m", 2, "b"⟩,
            ⟨⟨"user", "three", 3⟩, "m", 3, "c"⟩] :
            List CreateCall).foldl createStep defaultStorage)
        (some "a") ⟨"user", "four", 4⟩ "m" 4 "x").2
        none ⟨"user", "five", 5⟩ "m" 5 "e").2).chats =
      [mkConversation ⟨"user", "three", 3⟩ "m" 3 "c",
       appendToChat (mkConversation ⟨"user", "one", 1⟩ "m" 1 "a") ⟨"user", "four", 4⟩ 4,
       mkConversation ⟨"user", "five", 5⟩ "m" 5 "e"] ∧
    mkConversation ⟨"user", "two", 2⟩ "m" 2 "b" ∉
      ((appendMessage (appendMessage
          (([⟨⟨"user", "one", 1⟩, "m", 1, "a"⟩, ⟨⟨"user", "two", 2⟩, "m", 2, "b"⟩,
              ⟨⟨"user", "three", 3⟩, "m", 3, "c"⟩] :
              List CreateCall).foldl createStep defaultStorage)
          (some "a") ⟨"user", "four", 4⟩ "m" 4 "x").2
          none ⟨"user", "five", 5⟩ "m" 5 "e").2).chats :=
  c3_append_protects ⟨"user", "one", 1⟩ ⟨"user", "two", 2⟩ ⟨"user", "three", 3⟩
    ⟨"user", "four", 4⟩ ⟨"user", "five", 5⟩ "m" "m" "m" "m" "m" 1 2 3 4 5
    "a" "b" "c" "e" "x" (by decide) (by decide) (by decide)
    (by decide) (by decide) (by decide) _ _ _ rfl rfl rfl

theorem find?_append_of_none {p : Conversation → Bool} {l1 l2 : List Conversation}
    (h : ∀ x ∈ l1, p x = false) :
    List.find? p (l1 ++ l2) = List.find? p l2 := by
  induction l1 with
  | nil => rfl
  | cons a l ih =>
    have ha : p a = false := h a (List.mem_cons_self a l)
    rw [List.cons_append, List.find?_cons_of_neg _ (by simp [ha])]
    exact ih (fun x hx => h x (List.mem_cons_of_mem a hx))

theorem mem_chats_of_mem_kept {st : UserStorage} {x : Conversation}
    (hx : x ∈ (if MAX_CHATS ≤ st.chats.length then (sortByUpdatedAt st.chats).tail
        else st.chats)) :
    x ∈ st.chats := by
  by_cases hc : MAX_CHATS ≤ st.chats.length
  · rw [if_pos hc] at hx
    exact mem_sortByUpdatedAt.mp (List.mem_of_mem_tail hx)
  · rwa [if_neg hc] at hx

/-- Claim C8: creating a new conversation returns the freshly built record,
and as long as the fresh id is not already in the store, `getConversation`
on the returned record's id yields that record, whose message list is
exactly the single appended message. -/
theorem c8_roundtrip (st : UserStorage) (m : Message) (model : String)
    (now : Nat) (freshId : String)
    (hfresh : ∀ c ∈ st.chats, c.id ≠ freshId) :
    (appendMessage st none m model now freshId).1 =
      AppendOutcome.ok (mkConversation m model now freshId) ∧
    getConversation (appendMessage st none m model now freshId).2
        (mkConversation m model now freshId).id =
      some (mkConversation m model now freshId) ∧
    (mkConversation m model now freshId).messages = [m] := by
  refine ⟨rfl, ?_, rfl⟩
  have hch : ((appendMessage st none m model now freshId).2).chats =
      (if MAX_CHATS ≤ st.chats.length then (sortByUpdatedAt st.chats).tail
       else st.chats) ++ [mkConversation m model now freshId] := rfl
  show List.find? _ ((appendMessage st none m model now freshId).2).chats = _
  rw [hch, find?_append_of_none, List.find?_cons_of_pos]
  · simp [mkConversation]
  · intro x hx
    simp [mkConversation, hfresh x (mem_chats_of_mem_kept hx)]

/-- Witness for C8 at a concrete one-record store and fresh id "f". -/
theorem c8_roundtrip_witness :
    (appendMessage ⟨[⟨"a", "t", "m", [], 0, 0⟩], defaultPreferences⟩ none
        ⟨"user", "hi", 1⟩ "gpt-4o" 1 "f").1 =
      AppendOutcome.ok (mkConversation ⟨"user", "hi", 1⟩ "gpt-4o" 1 "f") ∧
    getConversation (appendMessage ⟨[⟨"a", "t", "m", [], 0, 0⟩], defaultPreferences⟩
        none ⟨"user", "hi", 1⟩ "gpt-4o" 1 "f").2
        (mkConversation ⟨"user", "hi", 1⟩ "gpt-4o" 1 "f").id =
      some (mkConversation ⟨"user", "hi", 1⟩ "gpt-4o" 1 "f") ∧
    (mkConversation ⟨"user", "hi", 1⟩ "gpt-4o" 1 "f").messages = [⟨"user", "hi", 1⟩] :=
  c8_roundtrip ⟨[⟨"a", "t", "m", [], 0, 0⟩], defaultPreferences⟩ ⟨"user", "hi", 1⟩
    "gpt-4o" 1 "f" (by decide)

theorem touchChat_first_match (cid : String) (m : Message) (now : Nat)
    (pre post : List Conversation) (c : Conversation) (hc : c.id = cid)
    (hfirst : ∀ d ∈ pre, d.id ≠ cid) :
    touchChat cid m now (pre ++ c :: post) = pre ++ appendToChat c m now :: post := by
  induction pre with
  | nil => simp [touchChat, hc]
  | cons d ds ih =>
    have hd : (d.id == cid) = false := by
      simp [hfirst d (List.mem_cons_self d ds)]
    simp only [List.cons_append, touchChat, hd, Bool.false_eq_true, if_false,
      List.append_eq]
    rw [ih (fun x hx => hfirst x (List.mem_cons_of_mem d hx))]

/-- Claim C9: appending to an existing conversation (located as the first
record with the given id) replaces only that record by one with the message
pushed and `updatedAt` set to now; its id, title, model and `createdAt` are
unchanged, all other records and the preferences are untouched, and the
result does not depend on the `model` and `freshId` arguments. -/
theorem c9_append_frame (pre post : List Conversation) (prefs : UserPreferences)
    (c : Conversation) (m : Message) (model model2 : String) (now : Nat)
    (freshId freshId2 : String)
    (hcid : c.id ≠ "") (hfirst : ∀ d ∈ pre, d.id ≠ c.id) :
    appendMessage ⟨pre ++ c :: post, prefs⟩ (some c.id) m model now freshId =
      (AppendOutcome.ok (appendToChat c m now),
       ⟨pre ++ appendToChat c m now :: post, prefs⟩) ∧
    (appendToChat c m now).id = c.id ∧
    (appendToChat c m now).title = c.title ∧
    (appendToChat c m now).model = c.model ∧
    (appendToChat c m now).createdAt = c.createdAt ∧
    (appendToChat c m now).messages = c.messages ++ [m] ∧
    (appendToChat c m now).updatedAt = now ∧
    appendMessage ⟨pre ++ c :: post, prefs⟩ (some c.id) m model now freshId =
      appendMessage ⟨pre ++ c :: post, prefs⟩ (some c.id) m model2 now freshId2 := by
  have hfind : List.find? (fun d => d.id == c.id) (pre ++ c :: post) = some c := by
    rw [find?_append_of_none, List.find?_cons_of_pos]
    · simp
    · intro x hx
      simp [hfirst x hx]
  have hmain : ∀ mo fid, appendMessage ⟨pre ++ c :: post, prefs⟩ (some c.id) m mo now fid =
      (AppendOutcome.ok (appendToChat c m now),
       ⟨pre ++ appendToChat c m now :: post, prefs⟩) := by
    intro mo fid
    have ht := touchChat_first_match c.id m now pre post c rfl hfirst
    simp [appendMessage, hcid, hfind, ht]
  refine ⟨hmain model freshId, rfl, rfl, rfl, rfl, rfl, rfl, ?_⟩
  rw [hmain model freshId, hmain model2 freshId2]

/-- Witness for C9 at a concrete two-record store, touching id "b". -/
theorem c9_append_frame_witness :
    appendMessage ⟨[⟨"a", "t", "m", [], 0, 0⟩] ++ ⟨"b", "u", "n", [], 1, 1⟩ :: [],
        defaultPreferences⟩ (some (Conversation.id ⟨"b", "u", "n", [], 1, 1⟩))
      ⟨"user", "hi", 2⟩ "gpt-4o" 2 "f" =
      (AppendOutcome.ok (appendToChat ⟨"b", "u", "n", [], 1, 1⟩ ⟨"user", "hi", 2⟩ 2),
       ⟨[⟨"a", "t", "m", [], 0, 0⟩] ++
          appendToChat ⟨"b", "u", "n", [], 1, 1⟩ ⟨"user", "hi", 2⟩ 2 :: [],
        defaultPreferences⟩) ∧
    (appendToChat ⟨"b", "u", "n", [], 1, 1⟩ ⟨"user", "hi", 2⟩ 2).id =
      Conversation.id ⟨"b", "u", "n", [], 1, 1⟩ ∧
    (appendToChat ⟨"b", "u", "n", [], 1, 1⟩ ⟨"user", "hi", 2⟩ 2).title = "u" ∧
    (appendToChat ⟨"b", "u", "n", [], 1, 1⟩ ⟨"user", "hi", 2⟩ 2).model = "n" ∧
    (appendToChat ⟨"b", "u", "n", [], 1, 1⟩ ⟨"user", "hi", 2⟩ 2).createdAt = 1 ∧
    (appendToChat ⟨"b", "u", "n", [], 1, 1⟩ ⟨"user", "hi", 2⟩ 2).messages =
      [] ++ [⟨"user", "hi", 2⟩] ∧
    (appendToChat ⟨"b", "u", "n", [], 1, 1⟩ ⟨"user", "hi", 2⟩ 2).updatedAt = 2 ∧
    appendMessage ⟨[⟨"a", "t", "m", [], 0, 0⟩] ++ ⟨"b", "u", "n", [], 1, 1⟩ :: [],
        defaultPreferences⟩ (some (Conversation.id ⟨"b", "u", "n", [], 1, 1⟩))
      ⟨"user", "hi", 2⟩ "gpt-4o" 2 "f" =
      appendMessage ⟨[⟨"a", "t", "m", [], 0, 0⟩] ++ ⟨"b", "u", "n", [], 1, 1⟩ :: [],
          defaultPreferences⟩ (some (Conversation.id ⟨"b", "u", "n", [], 1, 1⟩))
        ⟨"user", "hi", 2⟩ "claude" 2 "g" :=
  c9_append_frame [⟨"a", "t", "m", [], 0, 0⟩] [] defaultPreferences
    ⟨"b", "u", "n", [], 1, 1⟩ ⟨"user", "hi", 2⟩ "gpt-4o" "claude" 2 "f" "g"
    (by decide) (by decide)

end Goldfish
